import Mathlib

/-!
Shallow embedding of the player module (`src/creatures/players/player.cpp`)
of an open-tibia style game server, together with proofs about the
properties its specification states.

Conventions used throughout:
* machine integers are modelled as `ℕ` / `ℤ`; the few places where unsigned
  wrap-around is reachable use an explicit `% 2 ^ 64`;
* C++ `double` arithmetic is modelled by exact rational arithmetic (`ℚ`);
  `std::round` on a non-negative argument is `⌊x + 1/2⌋` and a cast of a
  non-negative `double` to an unsigned integer is `⌊x⌋`;
* `while` loops are encoded as structurally recursive functions over an
  explicit iteration bound (`fuel`); every call site passes a bound that
  dominates the iteration count of every terminating execution of the
  C++ loop, so the encoding agrees with the source wherever the source
  terminates;
* external collaborators (script hooks, the config manager, the vocation
  table) are parameters of the corresponding functions.
-/

namespace PlayerSpec

/-! ## Storage key/value map (`Player::addStorageValue`, `Player::getStorageValue`) -/

/-- Modelled from the spec: "certain key ranges are reserved (outfits, mounts,
familiars) and decoded specially on write".  The numeric bounds of the ranges
live in a header that is not part of the sources, so each range is kept as a
decidable predicate on keys. -/
structure StorageRanges where
  inReserved : ℕ → Bool
  inOutfits : ℕ → Bool
  inMounts : ℕ → Bool
  inFamiliars : ℕ → Bool

/-- The player state touched by storage writes: the storage map plus the outfit
and familiar lists fed by the reserved ranges. -/
structure StorageState where
  storageMap : ℕ → Option ℤ
  outfits : List (ℤ × ℤ)
  familiars : List ℤ

/-- The non-reserved tail of `Player::addStorageValue`: a value of `-1` erases
the key, any other value is stored. -/
def storeKeyValue (st : StorageState) (key : ℕ) (value : ℤ) : StorageState :=
  if value ≠ -1 then
    { st with storageMap := fun k => if k = key then some value else st.storageMap k }
  else
    { st with storageMap := fun k => if k = key then none else st.storageMap k }

/-- `Player::addStorageValue`.  A key in the reserved outfit (resp. familiar)
range appends the decoded value (`value >> 16` is an arithmetic shift, i.e.
floor division by `2^16`; `value & 0xFF` is `value mod 256` in two's
complement) and does not touch the map; a key in the mount range falls through
to the ordinary store; an unknown reserved key is logged and dropped. -/
def addStorageValue (R : StorageRanges) (st : StorageState) (key : ℕ) (value : ℤ) :
    StorageState :=
  if R.inReserved key then
    if R.inOutfits key then
      { st with outfits := st.outfits ++ [(Int.fdiv value 65536, Int.emod value 256)] }
    else if R.inMounts key then
      storeKeyValue st key value
    else if R.inFamiliars key then
      { st with familiars := st.familiars ++ [Int.fdiv value 65536] }
    else
      st
  else
    storeKeyValue st key value

/-- `Player::getStorageValue`: returns whether the key is present, and the
value (`-1` when absent). -/
def getStorageValue (st : StorageState) (key : ℕ) : Bool × ℤ :=
  match st.storageMap key with
  | none => (false, -1)
  | some v => (true, v)

/-- An empty storage state. -/
def emptyStorage : StorageState :=
  { storageMap := fun _ => none, outfits := [], familiars := [] }

/-- Modelled from the spec: a storage-range instance in which key `1000` is a
reserved outfit key and no other key is reserved; the spec guarantees that the
reserved outfit range is non-empty, and any member of it exhibits the same
behaviour. -/
def sampleRanges : StorageRanges :=
  { inReserved := fun k => k = 1000
    inOutfits := fun k => k = 1000
    inMounts := fun _ => false
    inFamiliars := fun _ => false }

/-! ## VIP list (`Player::getMaxVIPEntries`, `Player::addVIP`) -/

/-- The part of the player's group record read by the VIP bound. -/
structure VipGroup where
  maxVipEntries : ℕ

/-- `Player::getMaxVIPEntries`: the group's limit when set, else 100 for
premium and 20 otherwise. -/
def getMaxVIPEntries (group : VipGroup) (premium : Bool) : ℕ :=
  if group.maxVipEntries ≠ 0 then group.maxVipEntries
  else if premium then 100
  else 20

/-- `Player::addVIP` restricted to the in-memory list: fails when the size
reaches the group bound or the hard cap of 200, or when the guid is already
present; otherwise inserts.  Returns the success flag and the new list. -/
def addVIP (group : VipGroup) (premium : Bool) (vipList : Finset ℕ) (vipGuid : ℕ) :
    Bool × Finset ℕ :=
  if vipList.card ≥ getMaxVIPEntries group premium ∨ vipList.card = 200 then
    (false, vipList)
  else if vipGuid ∈ vipList then
    (false, vipList)
  else
    (true, insert vipGuid vipList)

/-! ## Level percent (`Player::getPercentLevel`) -/

/-- `Player::getPercentLevel` over exact rationals: `round((count*100 / next) *
100) / 100`, zero when `next` is zero or the result exceeds 100.  `std::round`
on the non-negative argument is `⌊x + 1/2⌋`. -/
def getPercentLevel (count nextLevelCount : ℕ) : ℚ :=
  if nextLevelCount = 0 then 0
  else
    let result : ℚ := (⌊(count * 100 : ℚ) / nextLevelCount * 100 + 1 / 2⌋ : ℤ) / 100
    if result > 100 then 0 else result

/-- The `levelPercent` update shared by `addExperience`, `removeExperience`
and `death`: `getPercentLevel` on the distance into the current level when the
experience interval is positive, else zero. -/
def levelPercentAfter (experience currLevelExp nextLevelExp : ℕ) : ℚ :=
  if nextLevelExp > currLevelExp then
    getPercentLevel (experience - currLevelExp) (nextLevelExp - currLevelExp)
  else 0

/-- Truncation of the (non-negative) percent value when stored into an
unsigned integral field (`uint32_t newPercent = ...`, the `uint8_t` skill and
magic percent fields). -/
def percentTrunc (q : ℚ) : ℕ := Int.toNat ⌊q⌋

/-! ## Skill advancement (`Player::addSkillAdvance`) -/

/-- One tracked skill: level, tries into the level, and the cached percent. -/
structure SkillData where
  level : ℕ
  tries : ℕ
  percent : ℕ

/-- The advancement loop of `Player::addSkillAdvance`: while the tries plus
the remaining count reach the next requirement, advance a level, zero the
tries, and stop with the count consumed once the requirement curve plateaus.
Returns `(level, tries, count, currReqTries, nextReqTries)`.  The loop always
terminates (every iteration after the first consumes at least one unit of
`count`), so `count + 2` units of fuel are enough. -/
def skillAdvanceLoop (req : ℕ → ℕ) :
    ℕ → ℕ → ℕ → ℕ → ℕ → ℕ → ℕ × ℕ × ℕ × ℕ × ℕ
  | 0, level, tries, count, curr, next => (level, tries, count, curr, next)
  | fuel + 1, level, tries, count, curr, next =>
    if tries + count ≥ next then
      let count := count - (next - tries)
      let level := level + 1
      let curr := next
      let next := req (level + 1)
      if curr ≥ next then (level, 0, 0, curr, next)
      else skillAdvanceLoop req fuel level 0 count curr next
    else (level, tries, count, curr, next)

/-- `Player::addSkillAdvance`, with the vocation's required-tries curve for
the skill as a parameter and `count` being the amount after the skill-gain
hook.  A plateau of the curve at the current level is an immediate no-op. -/
def addSkillAdvance (req : ℕ → ℕ) (s : SkillData) (count : ℕ) : SkillData :=
  let currReqTries := req s.level
  let nextReqTries := req (s.level + 1)
  if currReqTries ≥ nextReqTries then s
  else if count = 0 then s
  else
    let r := skillAdvanceLoop req (count + 2) s.level s.tries count currReqTries nextReqTries
    let level := r.1
    let tries := r.2.1 + r.2.2.1
    let curr := r.2.2.2.1
    let next := r.2.2.2.2
    let newPercent := if next > curr then percentTrunc (getPercentLevel tries next) else 0
    { level := level, tries := tries, percent := newPercent }

/-! ## Mana spending (`Player::addManaSpent`) -/

/-- The magic-level part of the player state. -/
structure ManaState where
  magLevel : ℕ
  manaSpent : ℕ
  magLevelPercent : ℕ

/-- The advancement loop of `Player::addManaSpent`.  The first component is
true when the loop hit the plateau check inside the loop, which in the source
returns from the whole function (skipping the final `manaSpent += amount` and
the percent update).  Returns `(returned, magLevel, manaSpent, amount,
currReqMana, nextReqMana)`. -/
def manaAdvanceLoop (reqMana : ℕ → ℕ) :
    ℕ → ℕ → ℕ → ℕ → ℕ → ℕ → Bool × ℕ × ℕ × ℕ × ℕ × ℕ
  | 0, magLevel, spent, amount, curr, next => (false, magLevel, spent, amount, curr, next)
  | fuel + 1, magLevel, spent, amount, curr, next =>
    if spent + amount ≥ next then
      let amount := amount - (next - spent)
      let magLevel := magLevel + 1
      let curr := next
      let next := reqMana (magLevel + 1)
      if curr ≥ next then (true, magLevel, 0, amount, curr, next)
      else manaAdvanceLoop reqMana fuel magLevel 0 amount curr next
    else (false, magLevel, spent, amount, curr, next)

/-- `Player::addManaSpent`, with the vocation's required-mana curve as a
parameter and `amount` being the value after the skill-gain hook. -/
def addManaSpent (reqMana : ℕ → ℕ) (notGainMana : Bool) (s : ManaState) (amount : ℕ) :
    ManaState :=
  if notGainMana then s
  else
    let currReqMana := reqMana s.magLevel
    let nextReqMana := reqMana (s.magLevel + 1)
    if currReqMana ≥ nextReqMana then s
    else if amount = 0 then s
    else
      let r := manaAdvanceLoop reqMana (amount + 2) s.magLevel s.manaSpent amount
        currReqMana nextReqMana
      let returned := r.1
      let magLevel := r.2.1
      if returned then
        { magLevel := magLevel, manaSpent := 0, magLevelPercent := s.magLevelPercent }
      else
        let spent := r.2.2.1 + r.2.2.2.1
        let curr := r.2.2.2.2.1
        let next := r.2.2.2.2.2
        let percent := if next > curr then percentTrunc (getPercentLevel spent next) else 0
        { magLevel := magLevel, manaSpent := spent, magLevelPercent := percent }

/-! ## Experience gain and loss (`Player::addExperience`, `Player::removeExperience`) -/

/-- Per-level stat gains of a vocation. -/
structure Gains where
  hpGain : ℕ
  manaGain : ℕ
  capGain : ℕ

/-- The player state touched by experience changes. -/
structure ExpState where
  level : ℕ
  experience : ℕ
  health : ℤ
  healthMax : ℤ
  mana : ℤ
  manaMax : ℤ
  capacity : ℤ
  levelPercent : ℚ

/-- The level-up loop of `Player::addExperience`: while the experience
reaches the next level bound, advance a level and add the stat gains (the
base-vocation gains for a real vocation at level ≤ 8), stopping at a plateau
of the experience curve.  Returns the state together with the final
`currLevelExp` and `nextLevelExp`.  Each continuing iteration strictly
increases `nextLevelExp`, which stays bounded by the experience, so
`experience + 1` units of fuel are enough. -/
def addExpLoop (expFor : ℕ → ℕ) (vocId : ℕ) (noneGains vocGains : Gains) :
    ℕ → ExpState → ℕ → ℕ → ExpState × ℕ × ℕ
  | 0, st, curr, next => (st, curr, next)
  | fuel + 1, st, curr, next =>
    if st.experience ≥ next then
      let lvl := st.level + 1
      let g := if vocId ≠ 0 ∧ lvl ≤ 8 then noneGains else vocGains
      let st := { st with
        level := lvl
        healthMax := st.healthMax + g.hpGain
        health := st.health + g.hpGain
        manaMax := st.manaMax + g.manaGain
        mana := st.mana + g.manaGain
        capacity := st.capacity + g.capGain }
      let curr := next
      let next := expFor (lvl + 1)
      if curr ≥ next then (st, curr, next)
      else addExpLoop expFor vocId noneGains vocGains fuel st curr next
    else (st, curr, next)

/-- The level-change block shared by `addExperience` and `removeExperience`:
when the level after the loop differs from the level before it, health and
mana are set to their maxima (followed in the source by the speed update and
the advance notifications, which are external effects). -/
def levelChangeRefill (prevLevel : ℕ) (st2 : ExpState) : ExpState :=
  if st2.level ≠ prevLevel then
    { st2 with health := st2.healthMax, mana := st2.manaMax }
  else st2

/-- `Player::addExperience`, with the experience curve, the vocation id and
the stat-gain tables as parameters; `exp` is the amount after the
experience-gain hook.  On a net level change health and mana are set to their
maxima; the final `levelPercent` follows the shared update rule. -/
def addExperience (expFor : ℕ → ℕ) (vocId : ℕ) (noneGains vocGains : Gains)
    (st : ExpState) (exp : ℕ) : ExpState :=
  let currLevelExp := expFor st.level
  let nextLevelExp := expFor (st.level + 1)
  if currLevelExp ≥ nextLevelExp then
    { st with levelPercent := 0 }
  else if exp = 0 then st
  else
    let prevLevel := st.level
    let st1 := { st with experience := st.experience + exp }
    let r := addExpLoop expFor vocId noneGains vocGains (st1.experience + 1) st1
      currLevelExp nextLevelExp
    let st3 := levelChangeRefill prevLevel r.1
    { st3 with levelPercent := levelPercentAfter st3.experience r.2.1 r.2.2 }

/-- The level-down loop of `Player::removeExperience`: while above level 1
with experience below the current level bound, drop a level and remove the
stat gains (clamped at zero).  Returns the state and the final
`currLevelExp`.  The level decreases every iteration, so `level` units of
fuel are enough. -/
def removeExpLoop (expFor : ℕ → ℕ) (vocId : ℕ) (noneGains vocGains : Gains) :
    ℕ → ExpState → ℕ → ExpState × ℕ
  | 0, st, curr => (st, curr)
  | fuel + 1, st, curr =>
    if st.level > 1 ∧ st.experience < curr then
      let lvl := st.level - 1
      let g := if vocId ≠ 0 ∧ lvl ≤ 8 then noneGains else vocGains
      let st := { st with
        level := lvl
        healthMax := max 0 (st.healthMax - g.hpGain)
        manaMax := max 0 (st.manaMax - g.manaGain)
        capacity := max 0 (st.capacity - g.capGain) }
      removeExpLoop expFor vocId noneGains vocGains fuel st (expFor lvl)
    else (st, curr)

/-- `Player::removeExperience`, with `exp` being the amount after the
experience-loss hook.  On a net level change health and mana are set to their
maxima. -/
def removeExperience (expFor : ℕ → ℕ) (vocId : ℕ) (noneGains vocGains : Gains)
    (st : ExpState) (exp : ℕ) : ExpState :=
  if st.experience = 0 ∨ exp = 0 then st
  else
    let oldLevel := st.level
    let st1 := { st with experience := st.experience - exp }
    let r := removeExpLoop expFor vocId noneGains vocGains st1.level st1 (expFor st1.level)
    let st3 := levelChangeRefill oldLevel r.1
    { st3 with levelPercent := levelPercentAfter st3.experience r.2 (expFor (st3.level + 1)) }

/-! ## Death (`Player::death`, `Player::getLostPercent`) -/

/-- Unsigned 64-bit subtraction with wrap-around, used where the source
subtracts `uint64_t` values that may exceed the minuend. -/
def wrapSub64 (a b : ℕ) : ℕ := (a % 2 ^ 64 + (2 ^ 64 - b % 2 ^ 64)) % 2 ^ 64

/-- `Player::getLostPercent`: the configured flat percent (reduced by
promotion and per-blessing, floored at zero) when the config is set,
otherwise the level-cubic formula with relative promotion and blessing
reductions.  `hasBless i` is `Player::hasBlessing(i)`; the client OS decides
whether blessings 7 and 8 count. -/
def getLostPercent (cfgDeathLosePercent : ℤ) (promoted : Bool) (newClient : Bool)
    (hasBless : ℕ → Bool) (level : ℕ) (levelPercent : ℚ) (experience : ℕ) : ℚ :=
  let maxBlessing : ℕ := if newClient then 8 else 6
  let blessingCount : ℕ := (List.range' 2 (maxBlessing - 1)).countP hasBless
  if cfgDeathLosePercent ≠ -1 then
    let d := cfgDeathLosePercent
    let d := if promoted then d - 3 else d
    let d := d - blessingCount
    (max 0 d : ℤ) / 100
  else
    let lossPercent : ℚ :=
      if level ≥ 24 then
        let tmpLevel : ℚ := level + levelPercent / 100
        ((tmpLevel + 50) * 50 * ((tmpLevel * tmpLevel) - (5 * tmpLevel) + 8)) / experience
      else 5
    let percentReduction : ℚ := (if promoted then 30 else 0) + blessingCount * 8
    lossPercent * (1 - percentReduction / 100) / 100

/-- The PvP-death test of `Player::death`: some damage was dealt in the
in-fight window, and either the last hit came from a player or players dealt
at least 5% of it. -/
def pvpDeathFlag (lastHitIsPlayer : Bool) (playerDmg othersDmg : ℕ) : Bool :=
  if playerDmg > 0 ∨ othersDmg > 0 then
    lastHitIsPlayer ∨ ((playerDmg : ℚ) / (playerDmg + othersDmg) ≥ 1 / 20)
  else false

/-- The unfair-fight reduction of `Player::death`: on a PvP death against
attackers whose level sum exceeds the player's, `max(20, floor(level /
sumLevels * 100 + 0.5))`, else 100. -/
def unfairFightReduction (pvpDeath : Bool) (sumLevels level : ℕ) : ℕ :=
  if pvpDeath ∧ sumLevels > level then
    let reduce : ℚ := (level : ℚ) / sumLevels
    max 20 (Int.toNat ⌊reduce * 100 + 1 / 2⌋)
  else 100

/-- `deathLossPercent = getLostPercent() * (unfairFightReduction / 100.)`. -/
def deathLossPercentOf (lostPercent : ℚ) (u : ℕ) : ℚ := lostPercent * ((u : ℚ) / 100)

/-- The magic-level peel loop of `Player::death`: while the lost mana exceeds
the mana spent into the current level and the magic level is positive, peel a
level.  Structural on the magic level.  Returns `(magLevel, manaSpent,
lostMana)`. -/
def manaPeelLoop (reqMana : ℕ → ℕ) : ℕ → ℕ → ℕ → ℕ × ℕ × ℕ
  | 0, spent, lost => (0, spent, lost)
  | m + 1, spent, lost =>
    if lost > spent then
      manaPeelLoop reqMana m (reqMana (m + 1)) (lost - spent)
    else (m + 1, spent, lost)

/-- The skill peel loop of `Player::death`: while the lost tries exceed the
tries into the current level, peel a level, flooring at skill level 10 where
the remaining loss is discarded.  Returns `(level, tries, lostTries)`; the
level decreases every non-final iteration, so `level + 1` units of fuel are
enough. -/
def skillPeelLoop (req : ℕ → ℕ) : ℕ → ℕ → ℕ → ℕ → ℕ × ℕ × ℕ
  | 0, level, tries, lost => (level, tries, lost)
  | fuel + 1, level, tries, lost =>
    if lost > tries then
      let lost := lost - tries
      if level ≤ 10 then (10, 0, 0)
      else skillPeelLoop req fuel (level - 1) (req level) lost
    else (level, tries, lost)

/-- The level-down loop of the experience loss in `Player::death`: while
above level 1 with experience below the current level bound, drop a level and
remove the vocation stat gains (clamped at zero; unlike `removeExperience`,
no base-vocation fallback).  Returns `(level, healthMax, manaMax,
capacity)`. -/
def deathLevelLoop (expFor : ℕ → ℕ) (g : Gains) :
    ℕ → ℕ → ℕ → ℤ → ℤ → ℤ → ℕ × ℤ × ℤ × ℤ
  | 0, level, _, healthMax, manaMax, capacity => (level, healthMax, manaMax, capacity)
  | fuel + 1, level, experience, healthMax, manaMax, capacity =>
    if level > 1 ∧ experience < expFor level then
      deathLevelLoop expFor g fuel (level - 1) experience
        (max 0 (healthMax - g.hpGain)) (max 0 (manaMax - g.manaGain))
        (max 0 (capacity - g.capGain))
    else (level, healthMax, manaMax, capacity)

/-- The skull marker. -/
inductive Skull where
  | skullNone
  | yellow
  | green
  | white
  | red
  | black
deriving DecidableEq, Repr

/-- The player state read and written by `Player::death`. -/
structure DeathState where
  level : ℕ
  experience : ℕ
  levelPercent : ℚ
  health : ℤ
  healthMax : ℤ
  mana : ℤ
  manaMax : ℤ
  capacity : ℤ
  magLevel : ℕ
  manaSpent : ℕ
  magLevelPercent : ℕ
  skills : Fin 7 → SkillData
  blessings : ℕ → ℕ
  skull : Skull
  skillLoss : Bool

/-- The static context of a death: config, vocation tables and curves. -/
structure DeathCfg where
  deathLosePercent : ℤ
  promoted : Bool
  newClient : Bool
  vocId : ℕ
  vocGains : Gains
  reqMana : ℕ → ℕ
  reqSkillTries : Fin 7 → ℕ → ℕ
  expFor : ℕ → ℕ

/-- The per-death inputs of `Player::death`: the damage-map summary over the
in-fight window, the kind of the last hit, whether the charm bless of the
killing monster applies, and the experience-loss hook. -/
structure DeathEnv where
  lastHitIsPlayer : Bool
  charmApplies : Bool
  playerDmg : ℕ
  othersDmg : ℕ
  sumLevels : ℕ
  expLossHook : ℕ → ℕ

/-- `Player::death` over the progression state.  The skill-loss branch
computes the unfair-fight reduction and the death-loss percent, peels mana,
skill tries and experience, removes blessings (PvP keeps all but the first
slot), and finally resets the vitals — to `40/0` for a black skull, else to
the maxima.  The non-skill-loss branch only re-arms skill loss and refills
health.  Notifications, the corpse, teleportation and the condition cleanup
are external effects outside this state. -/
def death (cfg : DeathCfg) (env : DeathEnv) (st : DeathState) : DeathState :=
  if st.skillLoss then
    let pvp := pvpDeathFlag env.lastHitIsPlayer env.playerDmg env.othersDmg
    let u := unfairFightReduction pvp env.sumLevels st.level
    let sumMana := (List.range st.magLevel).foldl (fun acc i => acc + cfg.reqMana (i + 1)) 0
      + st.manaSpent
    let lost0 := getLostPercent cfg.deathLosePercent cfg.promoted cfg.newClient
      (fun i => st.blessings i > 0) st.level st.levelPercent st.experience
    let dlp := deathLossPercentOf lost0 u
    let dlp := if env.charmApplies then dlp * 90 / 100 else dlp
    let lostMana := Int.toNat ⌊(sumMana : ℚ) * dlp⌋
    let mp := manaPeelLoop cfg.reqMana st.magLevel st.manaSpent lostMana
    let magLevel := mp.1
    let manaSpent := wrapSub64 mp.2.1 mp.2.2
    let nextReqMana := cfg.reqMana (magLevel + 1)
    let magLevelPercent := if nextReqMana > cfg.reqMana magLevel then
      percentTrunc (getPercentLevel manaSpent nextReqMana) else 0
    let skills := fun i =>
      let sk := st.skills i
      let sumSkillTries := (List.range (sk.level + 1 - 11)).foldl
        (fun acc c => acc + cfg.reqSkillTries i (c + 11)) 0 + sk.tries
      let lostSkillTries := Int.toNat ⌊(sumSkillTries : ℚ) * dlp⌋
      let sp := skillPeelLoop (cfg.reqSkillTries i) (sk.level + 1) sk.level sk.tries
        lostSkillTries
      let tries := sp.2.1 - sp.2.2
      { level := sp.1, tries := tries
        percent := percentTrunc (getPercentLevel tries (cfg.reqSkillTries i sp.1)) }
    let expLoss := env.expLossHook (Int.toNat ⌊(st.experience : ℚ) * dlp⌋)
    let afterExp :=
      if expLoss ≠ 0 then
        let exp1 := if cfg.vocId = 0 ∨ st.level > 7 then wrapSub64 st.experience expLoss
          else st.experience
        let dl := deathLevelLoop cfg.expFor cfg.vocGains st.level st.level exp1
          st.healthMax st.manaMax st.capacity
        let lvl := dl.1
        let lp := levelPercentAfter exp1 (cfg.expFor lvl) (cfg.expFor (lvl + 1))
        (lvl, exp1, dl.2.1, dl.2.2.1, dl.2.2.2, lp)
      else (st.level, st.experience, st.healthMax, st.manaMax, st.capacity, st.levelPercent)
    let blessings := if pvp ∧ st.blessings 1 > 0 then
        fun i => if i = 1 then st.blessings 1 - 1 else st.blessings i
      else
        fun i => if 2 ≤ i ∧ i ≤ 8 then st.blessings i - 1 else st.blessings i
    let vitals : ℤ × ℤ := if st.skull = Skull.black then (40, 0)
      else (afterExp.2.2.1, afterExp.2.2.2.1)
    { level := afterExp.1
      experience := afterExp.2.1
      levelPercent := afterExp.2.2.2.2.2
      health := vitals.1
      healthMax := afterExp.2.2.1
      mana := vitals.2
      manaMax := afterExp.2.2.2.1
      capacity := afterExp.2.2.2.2.1
      magLevel := magLevel
      manaSpent := manaSpent
      magLevelPercent := magLevelPercent
      skills := skills
      blessings := blessings
      skull := st.skull
      skillLoss := st.skillLoss }
  else
    { st with skillLoss := true, health := st.healthMax }

/-! ## Unjustified kills and skulls (`Player::addUnjustifiedDead`) -/

/-- The configured kill thresholds and skull durations (days). -/
structure SkullCfg where
  dayKillsToRed : ℤ
  weekKillsToRed : ℤ
  monthKillsToRed : ℤ
  redSkullDuration : ℕ
  blackSkullDuration : ℕ

/-- The skull-related player state: the current skull, the remaining skull
ticks, and the recorded unjustified-kill times (seconds). -/
structure SkullState where
  skull : Skull
  skullTicks : ℕ
  unjustifiedKills : List ℕ

/-- `Player::addUnjustifiedDead`: a no-op for the no-gain-in-fight flag, a
self kill, or an enforced-PvP world; otherwise the kill is recorded, the
kills inside the 4-hour/7-day/30-day windows are counted (into `uint8_t`
counters, hence mod 256), and a non-black skull is promoted to black at twice
a threshold or to red at a threshold, (re)setting the skull ticks from the
configured duration in days. -/
def addUnjustifiedDead (cfg : SkullCfg) (notGainInFight attackedIsSelf enforcedPvp : Bool)
    (now : ℕ) (st : SkullState) : SkullState :=
  if notGainInFight || attackedIsSelf || enforcedPvp then st
  else
    let kills := st.unjustifiedKills ++ [now]
    let dayKills := (kills.countP fun t => now - t ≤ 4 * 60 * 60) % 256
    let weekKills := (kills.countP fun t => now - t ≤ 7 * 24 * 60 * 60) % 256
    let monthKills := (kills.countP fun t => now - t ≤ 30 * 24 * 60 * 60) % 256
    if st.skull ≠ Skull.black then
      if (dayKills : ℤ) ≥ 2 * cfg.dayKillsToRed ∨ (weekKills : ℤ) ≥ 2 * cfg.weekKillsToRed
          ∨ (monthKills : ℤ) ≥ 2 * cfg.monthKillsToRed then
        { skull := Skull.black
          skullTicks := cfg.blackSkullDuration * 24 * 60 * 60 * 1000
          unjustifiedKills := kills }
      else if (dayKills : ℤ) ≥ cfg.dayKillsToRed ∨ (weekKills : ℤ) ≥ cfg.weekKillsToRed
          ∨ (monthKills : ℤ) ≥ cfg.monthKillsToRed then
        { skull := Skull.red
          skullTicks := cfg.redSkullDuration * 24 * 60 * 60 * 1000
          unjustifiedKills := kills }
      else { st with unjustifiedKills := kills }
    else { st with unjustifiedKills := kills }

/-! ## Wheel of Destiny: Battle Instinct (`Player::checkWheelOfDestinyBattleInstinct`) -/

/-- What the 3×3 scan finds on one tile: no tile, a tile without a top
visible creature, or a top visible creature (which may be the player itself
or one of its own summons). -/
inductive BattleCell where
  | noTile
  | noCreature
  | creature (isSelf ownSummon : Bool)
deriving DecidableEq, Repr

/-- A cell contributes to the count when it holds a creature that is neither
the player nor a summon whose master is the player. -/
def cellCounted : BattleCell → Bool
  | BattleCell.creature isSelf ownSummon => !isSelf && !ownSummon
  | _ => false

/-- The counting double loop of the Battle Instinct check, over the 3×3
neighbourhood cells in scan order: each cell adds at most one, and the scan
stops once the count reaches 8. -/
def battleScan : List BattleCell → ℕ → ℕ
  | [], n => n
  | c :: rest, n =>
    if n ≥ 8 then n
    else battleScan rest (n + if cellCounted c then 1 else 0)

/-- The Battle Instinct outputs: the two major stats and the cached nearby
count. -/
structure BattleState where
  melee : ℕ
  shield : ℕ
  creaturesNearby : ℕ

/-- `Player::checkWheelOfDestinyBattleInstinct` (minus the on-think timer):
with a count of at least 5, the melee major stat becomes `n − 4` and the
shield major stat `6·(n − 4)`; otherwise both are cleared.  Returns whether
the client needs an update, and the new stats. -/
def checkWheelOfDestinyBattleInstinct (cells : List BattleCell) (st : BattleState) :
    Bool × BattleState :=
  let n := battleScan cells 0
  if n ≥ 5 then
    let m := n - 4
    let meleeSkill := 1 * m
    let shieldSkill := 6 * m
    if st.melee ≠ meleeSkill ∨ st.shield ≠ shieldSkill then
      (true, { melee := meleeSkill, shield := shieldSkill, creaturesNearby := n })
    else (false, { st with creaturesNearby := n })
  else
    if st.melee ≠ 0 ∨ st.shield ≠ 0 then
      (true, { melee := 0, shield := 0, creaturesNearby := 0 })
    else (false, { st with creaturesNearby := 0 })

/-! ## Slot placement (`Player::queryAdd`, `Player::hasCapacity`) -/

/-- The weapon types distinguished by the hand rules. -/
inductive WeaponType where
  | wNone
  | sword
  | club
  | axe
  | shield
  | distance
  | wand
  | ammo
  | quiver
deriving DecidableEq, Repr

/-- The slot-position bitmask of an item type, one flag per bit read by
`queryAdd`. -/
structure SlotPos where
  head : Bool
  necklace : Bool
  backpack : Bool
  armor : Bool
  right : Bool
  left : Bool
  legs : Bool
  feet : Bool
  ring : Bool
  ammo : Bool
  twoHand : Bool
deriving DecidableEq, Repr

/-- The item attributes read by `queryAdd` and `hasCapacity`; `oid` stands
for the object identity used by the source's pointer comparisons. -/
structure Item where
  oid : ℕ
  slotPosition : SlotPos
  weaponType : WeaponType
  pickupable : Bool
  stackable : Bool
  itemId : ℕ
  itemCount : ℕ
  isContainer : Bool
  weight : ℕ
  baseWeight : ℕ
deriving DecidableEq, Repr

/-- The slot index argument of `queryAdd`; `whereever` covers
`CONST_SLOT_WHEREEVER` and `-1`, `invalid` the remaining indices. -/
inductive SlotIndex where
  | head
  | necklace
  | backpack
  | armor
  | right
  | left
  | legs
  | feet
  | ring
  | ammo
  | whereever
  | invalid
deriving DecidableEq, Repr

/-- The return values of the inventory placement path. -/
inductive ReturnValue where
  | noError
  | notPossible
  | notEnoughRoom
  | notEnoughCapacity
  | cannotPickup
  | cannotBeDressed
  | putInBothHands
  | putInYourHand
  | bothHandsNeedToBeFree
  | dropTwoHandedItem
  | canOnlyUseOneShield
  | canOnlyUseOneWeapon
  | needExchange
deriving DecidableEq, Repr

/-- The player-side context read by `queryAdd`: the classic-slots config, the
inventory, the capacity inputs and the equip-hook verdict. -/
structure QueryCtx where
  classicSlots : Bool
  inventory : SlotIndex → Option Item
  flagCannotPickupItem : Bool
  flagHasInfiniteCapacity : Bool
  itemTopParentIsSelf : Bool
  freeCapacity : ℕ
  equipHookApproves : Bool

/-- `Player::hasCapacity`: always fails under the cannot-pickup flag, always
passes with infinite capacity or when the item is already held; otherwise the
item's (per-count for stackables) weight must fit the free capacity. -/
def hasCapacity (ctx : QueryCtx) (item : Item) (count : ℕ) : Bool :=
  if ctx.flagCannotPickupItem then false
  else if ctx.flagHasInfiniteCapacity || ctx.itemTopParentIsSelf then true
  else
    let itemWeight := if item.isContainer then item.weight else item.baseWeight
    let itemWeight := if item.stackable then itemWeight * count else itemWeight
    itemWeight ≤ ctx.freeCapacity

/-- The preset of `ret` before the slot switch in `queryAdd`: dress-slot
flags give cannot-be-dressed, a two-hander asks for both hands, a plain hand
item is cannot-be-dressed without classic slots and put-in-your-hand with
them. -/
def queryAddPreset (item : Item) (classic : Bool) : ReturnValue :=
  let sp := item.slotPosition
  if sp.head || sp.necklace || sp.backpack || sp.armor || sp.legs || sp.feet || sp.ring then
    ReturnValue.cannotBeDressed
  else if sp.twoHand then ReturnValue.putInBothHands
  else if sp.right || sp.left then
    if !classic then ReturnValue.cannotBeDressed else ReturnValue.putInYourHand
  else ReturnValue.noError

/-- The per-slot switch of `Player::queryAdd` (the value of `ret` after the
`switch` statement).  The right and left cases carry the dual hand-exclusion
rules; without classic slots the right hand only takes shields and quivers
and a two-hander in either hand demands the other free except for the
distance-weapon/quiver pair. -/
def queryAddSwitch (ctx : QueryCtx) (index : SlotIndex) (item : Item) (count : ℕ) :
    ReturnValue :=
  let sp := item.slotPosition
  let preset := queryAddPreset item ctx.classicSlots
  match index with
  | SlotIndex.head => if sp.head then ReturnValue.noError else preset
  | SlotIndex.necklace => if sp.necklace then ReturnValue.noError else preset
  | SlotIndex.backpack => if sp.backpack then ReturnValue.noError else preset
  | SlotIndex.armor => if sp.armor then ReturnValue.noError else preset
  | SlotIndex.right =>
    if sp.right then
      if !ctx.classicSlots then
        if item.weaponType ≠ WeaponType.shield ∧ item.weaponType ≠ WeaponType.quiver then
          ReturnValue.cannotBeDressed
        else
          match ctx.inventory SlotIndex.left with
          | some leftItem =>
            if leftItem.slotPosition.twoHand || sp.twoHand then
              if item.weaponType = WeaponType.quiver ∧
                  leftItem.weaponType = WeaponType.distance then
                ReturnValue.noError
              else ReturnValue.bothHandsNeedToBeFree
            else ReturnValue.noError
          | none => ReturnValue.noError
      else if sp.twoHand then
        match ctx.inventory SlotIndex.left with
        | some leftItem =>
          if leftItem.oid ≠ item.oid then ReturnValue.bothHandsNeedToBeFree
          else ReturnValue.noError
        | none => ReturnValue.noError
      else
        match ctx.inventory SlotIndex.left with
        | some leftItem =>
          if leftItem.slotPosition.twoHand then ReturnValue.dropTwoHandedItem
          else if item.oid = leftItem.oid ∧ count = item.itemCount then ReturnValue.noError
          else if leftItem.weaponType = WeaponType.shield ∧
              item.weaponType = WeaponType.shield then
            ReturnValue.canOnlyUseOneShield
          else if leftItem.weaponType = WeaponType.wNone ∨ item.weaponType = WeaponType.wNone
              ∨ leftItem.weaponType = WeaponType.shield ∨ leftItem.weaponType = WeaponType.ammo
              ∨ item.weaponType = WeaponType.shield ∨ item.weaponType = WeaponType.ammo then
            ReturnValue.noError
          else ReturnValue.canOnlyUseOneWeapon
        | none => ReturnValue.noError
    else preset
  | SlotIndex.left =>
    if sp.left then
      if !ctx.classicSlots then
        if item.weaponType = WeaponType.wNone ∨ item.weaponType = WeaponType.shield
            ∨ item.weaponType = WeaponType.ammo then
          ReturnValue.cannotBeDressed
        else
          match ctx.inventory SlotIndex.right with
          | some rightItem =>
            if sp.twoHand then
              if item.weaponType = WeaponType.distance ∧
                  rightItem.weaponType = WeaponType.quiver then
                ReturnValue.noError
              else ReturnValue.bothHandsNeedToBeFree
            else ReturnValue.noError
          | none => ReturnValue.noError
      else if sp.twoHand then
        match ctx.inventory SlotIndex.right with
        | some rightItem =>
          if rightItem.oid ≠ item.oid then ReturnValue.bothHandsNeedToBeFree
          else ReturnValue.noError
        | none => ReturnValue.noError
      else
        match ctx.inventory SlotIndex.right with
        | some rightItem =>
          if rightItem.slotPosition.twoHand then ReturnValue.dropTwoHandedItem
          else if item.oid = rightItem.oid ∧ count = item.itemCount then ReturnValue.noError
          else if rightItem.weaponType = WeaponType.shield ∧
              item.weaponType = WeaponType.shield then
            ReturnValue.canOnlyUseOneShield
          else if rightItem.weaponType = WeaponType.wNone ∨ item.weaponType = WeaponType.wNone
              ∨ rightItem.weaponType = WeaponType.shield ∨ rightItem.weaponType = WeaponType.ammo
              ∨ item.weaponType = WeaponType.shield ∨ item.weaponType = WeaponType.ammo then
            ReturnValue.noError
          else ReturnValue.canOnlyUseOneWeapon
        | none => ReturnValue.noError
    else preset
  | SlotIndex.legs => if sp.legs then ReturnValue.noError else preset
  | SlotIndex.feet => if sp.feet then ReturnValue.noError else preset
  | SlotIndex.ring => if sp.ring then ReturnValue.noError else preset
  | SlotIndex.ammo =>
    if sp.ammo || ctx.classicSlots then ReturnValue.noError else preset
  | SlotIndex.whereever => ReturnValue.notEnoughRoom
  | SlotIndex.invalid => ReturnValue.notPossible

/-- The checks after the slot switch in `queryAdd`, run only when the switch
produced no error or not-enough-room: an occupied target slot demands an
exchange unless stacking onto the same id, the capacity must suffice, and the
equip hook may veto. -/
def queryAddPost (ctx : QueryCtx) (index : SlotIndex) (item : Item) (count : ℕ)
    (ret : ReturnValue) : ReturnValue :=
  if ret = ReturnValue.noError ∨ ret = ReturnValue.notEnoughRoom then
    let needExch := match ctx.inventory index with
      | some inventoryItem => !inventoryItem.stackable || inventoryItem.itemId ≠ item.itemId
      | none => false
    if needExch then ReturnValue.needExchange
    else if !hasCapacity ctx item count then ReturnValue.notEnoughCapacity
    else if !ctx.equipHookApproves then ReturnValue.cannotBeDressed
    else ret
  else ret

/-- `Player::queryAdd` for an item: the child-is-owner fast path checks only
capacity; a non-pickupable item is rejected; otherwise the slot switch runs
followed by the exchange/capacity/equip-hook checks. -/
def queryAdd (ctx : QueryCtx) (index : SlotIndex) (item : Item) (count : ℕ)
    (childIsOwner noLimit : Bool) : ReturnValue :=
  if childIsOwner then
    if noLimit || hasCapacity ctx item count then ReturnValue.noError
    else ReturnValue.notEnoughCapacity
  else if !item.pickupable then ReturnValue.cannotPickup
  else queryAddPost ctx index item count (queryAddSwitch ctx index item count)

/-! ## Theorems -/

/-- C9 (counterexample): writing the value 5 under a reserved outfit key is
diverted into the outfit list, so the subsequent read misses: the
store-then-read round trip does not hold for every 32-bit key. -/
theorem addStorageValue_reservedKey_cex :
    (5 : ℤ) ≠ -1 ∧
    getStorageValue (addStorageValue sampleRanges emptyStorage 1000 5) 1000 ≠ (true, 5) ∧
    (addStorageValue sampleRanges emptyStorage 1000 5).outfits = [(0, 5)] := by
  decide

/-- C9 (amended): for every key that is either not reserved or falls into the
mount range (whose reserved branch falls through to the ordinary store),
storing a value other than −1 and reading the key back yields the stored
value. -/
theorem addStorageValue_getStorageValue_roundtrip (R : StorageRanges) (st : StorageState)
    (key : ℕ) (value : ℤ) (hv : value ≠ -1)
    (hk : R.inReserved key = false ∨
      (R.inOutfits key = false ∧ R.inMounts key = true)) :
    getStorageValue (addStorageValue R st key value) key = (true, value) := by
  rcases hk with hk | ⟨h1, h2⟩
  · simp [addStorageValue, storeKeyValue, getStorageValue, hk, hv]
  · by_cases hr : R.inReserved key = true <;>
      simp [addStorageValue, storeKeyValue, getStorageValue, hr, h1, h2, hv]

/-- C9 (witness): the round trip at the non-reserved key 7 with value 42. -/
theorem addStorageValue_getStorageValue_roundtrip_witness :
    getStorageValue (addStorageValue sampleRanges emptyStorage 7 42) 7 = (true, 42) :=
  addStorageValue_getStorageValue_roundtrip sampleRanges emptyStorage 7 42 (by decide)
    (Or.inl (by decide))

/-- C10: for a non-reserved key, writing −1 erases the key from the storage
map, and a subsequent read reports absence with out-value −1. -/
theorem addStorageValue_minusOne_removes (R : StorageRanges) (st : StorageState) (key : ℕ)
    (hk : R.inReserved key = false) :
    (addStorageValue R st key (-1)).storageMap key = none ∧
    getStorageValue (addStorageValue R st key (-1)) key = (false, -1) := by
  simp [addStorageValue, storeKeyValue, getStorageValue, hk]

/-- C10 (witness): deleting key 7 from a map that holds it. -/
theorem addStorageValue_minusOne_removes_witness :
    (addStorageValue sampleRanges
        { storageMap := fun k => if k = 7 then some 9 else none, outfits := [],
          familiars := [] } 7 (-1)).storageMap 7 = none ∧
    getStorageValue (addStorageValue sampleRanges
        { storageMap := fun k => if k = 7 then some 9 else none, outfits := [],
          familiars := [] } 7 (-1)) 7 = (false, -1) :=
  addStorageValue_minusOne_removes sampleRanges _ 7 (by decide)

/-- C8: starting at or below the effective bound — the group maximum (100
premium / 20 free when unset) capped by the hard limit 200 — `addVIP` keeps
the list at or below the bound, and returns failure whenever the bound is
already reached. -/
theorem addVIP_bounded (group : VipGroup) (premium : Bool) (vipList : Finset ℕ) (guid : ℕ)
    (h : vipList.card ≤ min (getMaxVIPEntries group premium) 200) :
    (addVIP group premium vipList guid).2.card ≤ min (getMaxVIPEntries group premium) 200 ∧
    (vipList.card = min (getMaxVIPEntries group premium) 200 →
      (addVIP group premium vipList guid).1 = false) := by
  constructor
  · unfold addVIP
    split_ifs with hfull hmem
    · exact h
    · exact h
    · have hle := Finset.card_insert_le guid vipList
      push_neg at hfull
      simp only
      omega
  · intro heq
    have hfull : vipList.card ≥ getMaxVIPEntries group premium ∨ vipList.card = 200 := by
      omega
    unfold addVIP
    rw [if_pos hfull]

/-- C8 (witness): a free player with no group limit and an empty list. -/
theorem addVIP_bounded_witness :
    (addVIP ⟨0⟩ false ∅ 5).2.card ≤ min (getMaxVIPEntries ⟨0⟩ false) 200 ∧
    ((∅ : Finset ℕ).card = min (getMaxVIPEntries ⟨0⟩ false) 200 →
      (addVIP ⟨0⟩ false ∅ 5).1 = false) :=
  addVIP_bounded ⟨0⟩ false ∅ 5 (by decide)

/-- A small experience curve used for concrete evaluations: 0 to reach level
1, 3 to reach level 2, 1000 afterwards. -/
def expForSmall : ℕ → ℕ := fun lv => if lv ≤ 1 then 0 else if lv = 2 then 3 else 1000

/-- A level-1 player with no experience. -/
def stSmall : ExpState :=
  { level := 1, experience := 0, health := 100, healthMax := 100, mana := 50, manaMax := 50,
    capacity := 400, levelPercent := 0 }

/-- C2 (counterexample): after gaining 2 of the 3 experience points of level
1, the stored `levelPercent` is 66.67 — the rounded ratio — while the claimed
`floor((experience - expFor(level)) / (expFor(level+1) - expFor(level)) *
10000) / 100` is 66.66. -/
theorem getPercentLevel_round_not_floor_cex :
    (addExperience expForSmall 0 ⟨5, 5, 10⟩ ⟨5, 5, 10⟩ stSmall 2).level = 1 ∧
    (addExperience expForSmall 0 ⟨5, 5, 10⟩ ⟨5, 5, 10⟩ stSmall 2).experience = 2 ∧
    expForSmall (1 + 1) > expForSmall 1 ∧
    (addExperience expForSmall 0 ⟨5, 5, 10⟩ ⟨5, 5, 10⟩ stSmall 2).levelPercent = 6667 / 100 ∧
    ((⌊(((2 - expForSmall 1 : ℕ) : ℚ) /
        ((expForSmall (1 + 1) - expForSmall 1 : ℕ) : ℚ)) * 10000⌋ : ℤ) : ℚ) / 100 =
      6666 / 100 ∧
    (6667 / 100 : ℚ) ≠ 6666 / 100 :=
  ⟨by decide, by decide, by decide,
   by norm_num [addExperience, addExpLoop, expForSmall, stSmall, levelPercentAfter,
     getPercentLevel, levelChangeRefill],
   by norm_num [expForSmall],
   by norm_num⟩

/-- C2 (amended): when the experience interval of the current level is
positive, the `levelPercent` update stores the rounded (half-up, as
`std::round`) ratio `⌊(experience−expFor(level)) · 10000 /
(expFor(level+1)−expFor(level)) + 1/2⌋ / 100`; when the interval is not
positive it stores 0. -/
theorem levelPercentAfter_spec (expFor : ℕ → ℕ) (level e : ℕ) :
    (expFor level ≤ e → e < expFor (level + 1) →
      levelPercentAfter e (expFor level) (expFor (level + 1)) =
        ((⌊(((e - expFor level : ℕ) : ℚ) * 10000) /
            ((expFor (level + 1) - expFor level : ℕ) : ℚ) + 1 / 2⌋ : ℤ) : ℚ) / 100) ∧
    (expFor (level + 1) ≤ expFor level →
      levelPercentAfter e (expFor level) (expFor (level + 1)) = 0) := by
  constructor
  · intro h1 h2
    have hgt : expFor (level + 1) > expFor level := lt_of_le_of_lt h1 h2
    set c := expFor level
    set n := expFor (level + 1)
    have hm : 0 < n - c := by omega
    have hk : e - c < n - c := by omega
    unfold levelPercentAfter getPercentLevel
    rw [if_pos hgt, if_neg (by omega)]
    have hmq : (0 : ℚ) < ((n - c : ℕ) : ℚ) := by exact_mod_cast hm
    have harg : ((e - c : ℕ) : ℚ) * 100 / ((n - c : ℕ) : ℚ) * 100 =
        ((e - c : ℕ) : ℚ) * 10000 / ((n - c : ℕ) : ℚ) := by
      field_simp
      ring
    have hlt : ((e - c : ℕ) : ℚ) * 10000 / ((n - c : ℕ) : ℚ) + 1 / 2 < 10001 := by
      have hkq : ((e - c : ℕ) : ℚ) < ((n - c : ℕ) : ℚ) := by exact_mod_cast hk
      have hdiv : ((e - c : ℕ) : ℚ) * 10000 / ((n - c : ℕ) : ℚ) < 10000 := by
        rw [div_lt_iff₀ hmq]
        nlinarith
      linarith
    have hfloor : ⌊((e - c : ℕ) : ℚ) * 10000 / ((n - c : ℕ) : ℚ) + 1 / 2⌋ ≤ 10000 := by
      have := Int.floor_lt.mpr (by exact_mod_cast hlt :
        ((e - c : ℕ) : ℚ) * 10000 / ((n - c : ℕ) : ℚ) + 1 / 2 < ((10001 : ℤ) : ℚ))
      omega
    rw [harg]
    rw [if_neg]
    push_neg
    calc ((⌊((e - c : ℕ) : ℚ) * 10000 / ((n - c : ℕ) : ℚ) + 1 / 2⌋ : ℤ) : ℚ) / 100
        ≤ ((10000 : ℤ) : ℚ) / 100 := by
          apply div_le_div_of_nonneg_right ?_ (by norm_num)
          exact_mod_cast hfloor
      _ = 100 := by norm_num
  · intro hle
    unfold levelPercentAfter
    rw [if_neg (by omega)]

/-- C2 (witness): the positive-interval clause at experience 3 between the
bounds 2 and 4, and the plateau clause on a constant curve. -/
theorem levelPercentAfter_spec_witness :
    levelPercentAfter 3 2 4 =
      ((⌊(((3 - 2 : ℕ) : ℚ) * 10000) / (((2 * (1 + 1) : ℕ) - 2 * 1 : ℕ) : ℚ) + 1 / 2⌋ :
        ℤ) : ℚ) / 100 ∧
    levelPercentAfter 3 5 5 = 0 :=
  ⟨(levelPercentAfter_spec (fun lv => 2 * lv) 1 3).1 (by decide) (by decide),
   (levelPercentAfter_spec (fun _ => 5) 1 3).2 (by decide)⟩

/-- C5: when the vocation's required-tries curve plateaus at the skill's
current level, `addSkillAdvance` is a no-op for any count, and when the
required-mana curve plateaus at the current magic level, `addManaSpent` is a
no-op for any amount. -/
theorem addSkillAdvance_addManaSpent_plateau_noop (req reqMana : ℕ → ℕ)
    (notGainMana : Bool) (s : SkillData) (ms : ManaState) (count amount : ℕ)
    (h1 : req (s.level + 1) ≤ req s.level)
    (h2 : reqMana (ms.magLevel + 1) ≤ reqMana ms.magLevel) :
    addSkillAdvance req s count = s ∧
    addManaSpent reqMana notGainMana ms amount = ms := by
  constructor
  · unfold addSkillAdvance
    rw [if_pos h1]
  · unfold addManaSpent
    cases notGainMana
    · simp only [Bool.false_eq_true, if_false]
      rw [if_pos h2]
    · simp

/-- C5 (witness): a skill and a magic level sitting on constant requirement
curves take no advancement from a large count. -/
theorem addSkillAdvance_addManaSpent_plateau_noop_witness :
    addSkillAdvance (fun _ => 50) ⟨10, 7, 14⟩ 1000 = ⟨10, 7, 14⟩ ∧
    addManaSpent (fun _ => 1600) false ⟨4, 100, 6⟩ 99999 = ⟨4, 100, 6⟩ :=
  addSkillAdvance_addManaSpent_plateau_noop (fun _ => 50) (fun _ => 1600) false
    ⟨10, 7, 14⟩ ⟨4, 100, 6⟩ 1000 99999 (by decide) (by decide)

/-- The level-change block never changes the level. -/
theorem levelChangeRefill_level (prevLevel : ℕ) (st2 : ExpState) :
    (levelChangeRefill prevLevel st2).level = st2.level := by
  unfold levelChangeRefill
  split_ifs <;> rfl

/-- When the level did change, the level-change block leaves health and mana
at their maxima. -/
theorem levelChangeRefill_refills (prevLevel : ℕ) (st2 : ExpState)
    (h : st2.level ≠ prevLevel) :
    (levelChangeRefill prevLevel st2).health = (levelChangeRefill prevLevel st2).healthMax ∧
    (levelChangeRefill prevLevel st2).mana = (levelChangeRefill prevLevel st2).manaMax := by
  unfold levelChangeRefill
  rw [if_pos h]
  exact ⟨rfl, rfl⟩

/-- C3 (amended): a level transition through `addExperience` or
`removeExperience` always leaves health and mana at their maxima, and so does
the experience loss in `death` — except for a black-skulled player, whose
death sets the vitals to `40/0` instead. -/
theorem levelTransition_refills_vitals (expFor : ℕ → ℕ) (vocId : ℕ) (noneG vocG : Gains)
    (stA stR : ExpState) (gainExp loseExp : ℕ) (cfg : DeathCfg) (env : DeathEnv)
    (stD : DeathState) :
    ((addExperience expFor vocId noneG vocG stA gainExp).level ≠ stA.level →
      (addExperience expFor vocId noneG vocG stA gainExp).health =
        (addExperience expFor vocId noneG vocG stA gainExp).healthMax ∧
      (addExperience expFor vocId noneG vocG stA gainExp).mana =
        (addExperience expFor vocId noneG vocG stA gainExp).manaMax) ∧
    ((removeExperience expFor vocId noneG vocG stR loseExp).level ≠ stR.level →
      (removeExperience expFor vocId noneG vocG stR loseExp).health =
        (removeExperience expFor vocId noneG vocG stR loseExp).healthMax ∧
      (removeExperience expFor vocId noneG vocG stR loseExp).mana =
        (removeExperience expFor vocId noneG vocG stR loseExp).manaMax) ∧
    (stD.skull ≠ Skull.black →
      (death cfg env stD).level ≠ stD.level →
      (death cfg env stD).health = (death cfg env stD).healthMax ∧
      (death cfg env stD).mana = (death cfg env stD).manaMax) := by
  refine ⟨?_, ?_, ?_⟩
  · intro hlvl
    simp only [addExperience] at hlvl ⊢
    by_cases hc : expFor stA.level ≥ expFor (stA.level + 1)
    · rw [if_pos hc] at hlvl
      simp at hlvl
    · rw [if_neg hc] at hlvl ⊢
      by_cases he : gainExp = 0
      · rw [if_pos he] at hlvl
        simp at hlvl
      · rw [if_neg he] at hlvl ⊢
        dsimp only at hlvl ⊢
        rw [levelChangeRefill_level] at hlvl
        exact ⟨(levelChangeRefill_refills _ _ hlvl).1, (levelChangeRefill_refills _ _ hlvl).2⟩
  · intro hlvl
    simp only [removeExperience] at hlvl ⊢
    by_cases hc : stR.experience = 0 ∨ loseExp = 0
    · rw [if_pos hc] at hlvl
      simp at hlvl
    · rw [if_neg hc] at hlvl ⊢
      dsimp only at hlvl ⊢
      rw [levelChangeRefill_level] at hlvl
      exact ⟨(levelChangeRefill_refills _ _ hlvl).1, (levelChangeRefill_refills _ _ hlvl).2⟩
  · intro hskull hlvl
    by_cases hsl : stD.skillLoss = true
    · simp only [death] at hlvl ⊢
      rw [if_pos hsl] at hlvl ⊢
      dsimp only at hlvl ⊢
      rw [if_neg hskull]
      exact ⟨rfl, rfl⟩
    · exfalso
      apply hlvl
      simp only [death]
      rw [if_neg hsl]

/-- A death context with the flat 10% config loss, no promotion, vocation
NONE, small stat gains and a curve needing 100 experience for level 2. -/
def cfgDeathCex : DeathCfg :=
  { deathLosePercent := 10, promoted := false, newClient := false, vocId := 0,
    vocGains := ⟨5, 5, 10⟩, reqMana := fun _ => 0, reqSkillTries := fun _ _ => 0,
    expFor := fun lv => if lv ≤ 1 then 0 else if lv = 2 then 100 else 10000 }

/-- A PvE death: no player damage, identity experience-loss hook. -/
def envDeathCex : DeathEnv :=
  { lastHitIsPlayer := false, charmApplies := false, playerDmg := 0, othersDmg := 0,
    sumLevels := 0, expLossHook := fun e => e }

/-- A black-skulled level-2 player about to die with skill loss armed. -/
def stDeathCex : DeathState :=
  { level := 2, experience := 100, levelPercent := 0, health := 150, healthMax := 150,
    mana := 50, manaMax := 50, capacity := 400, magLevel := 0, manaSpent := 0,
    magLevelPercent := 0, skills := fun _ => ⟨10, 0, 0⟩, blessings := fun _ => 0,
    skull := Skull.black, skillLoss := true }

/-- C3 (counterexample): the death of this black-skulled player loses a level
(2 → 1), yet ends with `health = 40 ≠ healthMax = 145` and
`mana = 0 ≠ manaMax = 45`: the refill invariant fails on the death path for a
black skull. -/
theorem death_blackSkull_cex :
    stDeathCex.level = 2 ∧
    (death cfgDeathCex envDeathCex stDeathCex).level = 1 ∧
    (death cfgDeathCex envDeathCex stDeathCex).health = 40 ∧
    (death cfgDeathCex envDeathCex stDeathCex).healthMax = 145 ∧
    (death cfgDeathCex envDeathCex stDeathCex).mana = 0 ∧
    (death cfgDeathCex envDeathCex stDeathCex).manaMax = 45 ∧
    ((40 : ℤ) ≠ 145 ∧ (0 : ℤ) ≠ 45) := by
  norm_num [death, cfgDeathCex, envDeathCex, stDeathCex, pvpDeathFlag,
    unfairFightReduction, getLostPercent, deathLossPercentOf, manaPeelLoop,
    skillPeelLoop, deathLevelLoop, wrapSub64, percentTrunc, getPercentLevel,
    levelPercentAfter, List.range, List.range', List.countP, List.countP.go,
    show Int.toNat 10 = 10 from rfl]

/-- The witness counterpart of the black-skull state: a white skull. -/
def stDeathW : DeathState :=
  { stDeathCex with skull := Skull.white }

/-- C3 (witness): the three refill clauses at concrete level transitions — an
add from 1 short of level 2, a removal back below level 2, and a white-skull
death losing a level. -/
theorem levelTransition_refills_vitals_witness :
    ((addExperience expForSmall 0 ⟨5, 5, 10⟩ ⟨5, 5, 10⟩ stSmall 3).health =
        (addExperience expForSmall 0 ⟨5, 5, 10⟩ ⟨5, 5, 10⟩ stSmall 3).healthMax ∧
      (addExperience expForSmall 0 ⟨5, 5, 10⟩ ⟨5, 5, 10⟩ stSmall 3).mana =
        (addExperience expForSmall 0 ⟨5, 5, 10⟩ ⟨5, 5, 10⟩ stSmall 3).manaMax) ∧
    ((removeExperience expForSmall 0 ⟨5, 5, 10⟩ ⟨5, 5, 10⟩
          { stSmall with level := 2, experience := 3 } 1).health =
        (removeExperience expForSmall 0 ⟨5, 5, 10⟩ ⟨5, 5, 10⟩
          { stSmall with level := 2, experience := 3 } 1).healthMax ∧
      (removeExperience expForSmall 0 ⟨5, 5, 10⟩ ⟨5, 5, 10⟩
          { stSmall with level := 2, experience := 3 } 1).mana =
        (removeExperience expForSmall 0 ⟨5, 5, 10⟩ ⟨5, 5, 10⟩
          { stSmall with level := 2, experience := 3 } 1).manaMax) ∧
    ((death cfgDeathCex envDeathCex stDeathW).health =
        (death cfgDeathCex envDeathCex stDeathW).healthMax ∧
      (death cfgDeathCex envDeathCex stDeathW).mana =
        (death cfgDeathCex envDeathCex stDeathW).manaMax) := by
  have h := levelTransition_refills_vitals expForSmall 0 ⟨5, 5, 10⟩ ⟨5, 5, 10⟩ stSmall
    { stSmall with level := 2, experience := 3 } 3 1 cfgDeathCex envDeathCex stDeathW
  have hne : (death cfgDeathCex envDeathCex stDeathW).level ≠ stDeathW.level := by
    norm_num [death, cfgDeathCex, envDeathCex, stDeathW, stDeathCex, pvpDeathFlag,
      unfairFightReduction, getLostPercent, deathLossPercentOf, manaPeelLoop,
      skillPeelLoop, deathLevelLoop, wrapSub64, percentTrunc, getPercentLevel,
      levelPercentAfter, List.range, List.range', List.countP, List.countP.go,
      show Int.toNat 10 = 10 from rfl]
  exact ⟨h.1 (by decide), h.2.1 (by decide), h.2.2 (by decide) hne⟩

/-- C4 (counterexample): a PvP death at level 2 against attackers of summed
level 3 yields a reduction of 67 — the rounded ratio — while the claimed plain
floor clamped at 20 is 66. -/
theorem unfairFightReduction_round_not_floor_cex :
    unfairFightReduction true 3 2 = 67 ∧
    max 20 (Int.toNat ⌊((2 : ℚ) / 3) * 100⌋) = 66 ∧ (67 : ℕ) ≠ 66 := by
  refine ⟨?_, ?_, by decide⟩
  · norm_num [unfairFightReduction]
    decide
  · norm_num
    decide

/-- C4 (amended): on a PvP death with the attackers' level sum above the
player's level, the reduction lies in `[20, 100]` and equals
`max 20 ⌊level·100/sumLevels + 1/2⌋` (round half up, not plain floor); in
particular at a 3× level sum it is 33, and the death-loss percent is then
`lostPercent · 33/100`. -/
theorem unfairFightReduction_spec (level sumLevels : ℕ) (lostPercent : ℚ)
    (h1 : 1 ≤ level) (h2 : level < sumLevels) :
    20 ≤ unfairFightReduction true sumLevels level ∧
    unfairFightReduction true sumLevels level ≤ 100 ∧
    unfairFightReduction true sumLevels level =
      max 20 (Int.toNat ⌊((level : ℚ) * 100) / (sumLevels : ℚ) + 1 / 2⌋) ∧
    (sumLevels = 3 * level →
      unfairFightReduction true sumLevels level = 33 ∧
      deathLossPercentOf lostPercent (unfairFightReduction true sumLevels level) =
        lostPercent * 33 / 100) := by
  have hs : (0 : ℚ) < (sumLevels : ℚ) := by
    have : 0 < sumLevels := lt_of_le_of_lt (Nat.zero_le _) h2
    exact_mod_cast this
  have hdef : unfairFightReduction true sumLevels level =
      max 20 (Int.toNat ⌊((level : ℚ) / (sumLevels : ℚ)) * 100 + 1 / 2⌋) := by
    unfold unfairFightReduction
    rw [if_pos ⟨rfl, h2⟩]
  have harg : ((level : ℚ) / (sumLevels : ℚ)) * 100 = ((level : ℚ) * 100) / (sumLevels : ℚ) := by
    ring
  have hle100 : unfairFightReduction true sumLevels level ≤ 100 := by
    rw [hdef]
    have hlt : ((level : ℚ) / (sumLevels : ℚ)) * 100 + 1 / 2 < ((101 : ℤ) : ℚ) := by
      have hql : (level : ℚ) < (sumLevels : ℚ) := by exact_mod_cast h2
      have : (level : ℚ) / (sumLevels : ℚ) < 1 := (div_lt_one hs).mpr hql
      push_cast
      nlinarith
    have hfl : ⌊((level : ℚ) / (sumLevels : ℚ)) * 100 + 1 / 2⌋ ≤ 100 := by
      have := Int.floor_lt.mpr hlt
      omega
    have : Int.toNat ⌊((level : ℚ) / (sumLevels : ℚ)) * 100 + 1 / 2⌋ ≤ 100 := by omega
    omega
  refine ⟨by rw [hdef]; exact le_max_left _ _, hle100, by rw [hdef, harg], ?_⟩
  intro h3
  have hlq : (level : ℚ) ≠ 0 := by
    have : 0 < level := h1
    positivity
  have hval : ((level : ℚ) / (sumLevels : ℚ)) * 100 + 1 / 2 = 203 / 6 := by
    subst h3
    push_cast
    field_simp
    ring
  have h33 : unfairFightReduction true sumLevels level = 33 := by
    rw [hdef, hval]
    norm_num
    decide
  refine ⟨h33, ?_⟩
  rw [h33]
  unfold deathLossPercentOf
  push_cast
  ring

/-- C4 (witness): level 1 against a level sum of 3. -/
theorem unfairFightReduction_spec_witness :
    20 ≤ unfairFightReduction true 3 1 ∧
    unfairFightReduction true 3 1 ≤ 100 ∧
    unfairFightReduction true 3 1 =
      max 20 (Int.toNat ⌊((1 : ℚ) * 100) / (3 : ℚ) + 1 / 2⌋) ∧
    (3 = 3 * 1 →
      unfairFightReduction true 3 1 = 33 ∧
      deathLossPercentOf (1 / 2) (unfairFightReduction true 3 1) = 1 / 2 * 33 / 100) := by
  have h := unfairFightReduction_spec 1 3 (1 / 2) (by decide) (by decide)
  exact_mod_cast h

/-- An unjustified-kill step with all early-out flags clear records the kill. -/
theorem addUnjustifiedDead_kills (cfg : SkullCfg) (t : ℕ) (st : SkullState) :
    (addUnjustifiedDead cfg false false false t st).unjustifiedKills =
      st.unjustifiedKills ++ [t] := by
  unfold addUnjustifiedDead
  rw [if_neg (by simp)]
  dsimp only
  split_ifs <;> rfl

/-- A black skull is never touched by further unjustified kills: the skull
and the remaining ticks are unchanged. -/
theorem addUnjustifiedDead_black_frozen (cfg : SkullCfg) (t : ℕ) (st : SkullState)
    (hb : st.skull = Skull.black) :
    (addUnjustifiedDead cfg false false false t st).skull = Skull.black ∧
    (addUnjustifiedDead cfg false false false t st).skullTicks = st.skullTicks := by
  unfold addUnjustifiedDead
  simp [hb]

/-- The step preserves the invariant "a black skull carries the configured
black duration in ticks". -/
theorem addUnjustifiedDead_black_ticks (cfg : SkullCfg) (t : ℕ) (st : SkullState)
    (hinv : st.skull = Skull.black →
      st.skullTicks = cfg.blackSkullDuration * 24 * 60 * 60 * 1000) :
    (addUnjustifiedDead cfg false false false t st).skull = Skull.black →
    (addUnjustifiedDead cfg false false false t st).skullTicks =
      cfg.blackSkullDuration * 24 * 60 * 60 * 1000 := by
  by_cases hb : st.skull = Skull.black
  · intro _
    rw [(addUnjustifiedDead_black_frozen cfg t st hb).2]
    exact hinv hb
  · unfold addUnjustifiedDead
    simp only [Bool.or_self, Bool.false_eq_true, if_false]
    rw [if_pos hb]
    split_ifs with hblack hred
    · intro _
      rfl
    · intro hc
      simp at hc
    · intro hc
      exact absurd hc hb

/-- With a daily threshold of 3, a sixth kill counted inside the 4-hour
window promotes a non-black skull straight to black. -/
theorem addUnjustifiedDead_triggers_black (cfg : SkullCfg) (t : ℕ) (st : SkullState)
    (hday : cfg.dayKillsToRed = 3)
    (hnb : st.skull ≠ Skull.black)
    (hcount : ((st.unjustifiedKills ++ [t]).countP fun x => t - x ≤ 4 * 60 * 60) = 6) :
    (addUnjustifiedDead cfg false false false t st).skull = Skull.black ∧
    (addUnjustifiedDead cfg false false false t st).skullTicks =
      cfg.blackSkullDuration * 24 * 60 * 60 * 1000 := by
  unfold addUnjustifiedDead
  simp only [Bool.or_self, Bool.false_eq_true, if_false]
  rw [if_pos hnb, if_pos]
  · exact ⟨rfl, rfl⟩
  · left
    rw [hcount, hday]
    norm_num

/-- C6: a skull-free player (no-gain-in-fight clear, world not enforced-PvP)
with no recorded kills, under a daily red-skull threshold of 3, records six
unjustified kills within a 4-hour window: after the sixth the skull is black
and the remaining ticks are `BLACK_SKULL_DURATION · 86 400 000`
(days → milliseconds). -/
theorem addUnjustifiedDead_six_kills_black (cfg : SkullCfg)
    (t1 t2 t3 t4 t5 t6 ticks0 : ℕ)
    (hday : cfg.dayKillsToRed = 3)
    (h12 : t1 ≤ t2) (h23 : t2 ≤ t3) (h34 : t3 ≤ t4) (h45 : t4 ≤ t5) (h56 : t5 ≤ t6)
    (hwin : t6 - t1 ≤ 4 * 60 * 60) :
    (addUnjustifiedDead cfg false false false t6
        (addUnjustifiedDead cfg false false false t5
          (addUnjustifiedDead cfg false false false t4
            (addUnjustifiedDead cfg false false false t3
              (addUnjustifiedDead cfg false false false t2
                (addUnjustifiedDead cfg false false false t1
                  { skull := Skull.skullNone, skullTicks := ticks0,
                    unjustifiedKills := [] })))))).skull = Skull.black ∧
    (addUnjustifiedDead cfg false false false t6
        (addUnjustifiedDead cfg false false false t5
          (addUnjustifiedDead cfg false false false t4
            (addUnjustifiedDead cfg false false false t3
              (addUnjustifiedDead cfg false false false t2
                (addUnjustifiedDead cfg false false false t1
                  { skull := Skull.skullNone, skullTicks := ticks0,
                    unjustifiedKills := [] })))))).skullTicks =
      cfg.blackSkullDuration * 24 * 60 * 60 * 1000 := by
  set st0 : SkullState :=
    { skull := Skull.skullNone, skullTicks := ticks0, unjustifiedKills := [] } with hst0
  set st1 := addUnjustifiedDead cfg false false false t1 st0 with hst1
  set st2 := addUnjustifiedDead cfg false false false t2 st1 with hst2
  set st3 := addUnjustifiedDead cfg false false false t3 st2 with hst3
  set st4 := addUnjustifiedDead cfg false false false t4 st3 with hst4
  set st5 := addUnjustifiedDead cfg false false false t5 st4 with hst5
  have k5 : st5.unjustifiedKills = [t1, t2, t3, t4, t5] := by
    rw [hst5, addUnjustifiedDead_kills, hst4, addUnjustifiedDead_kills,
      hst3, addUnjustifiedDead_kills, hst2, addUnjustifiedDead_kills,
      hst1, addUnjustifiedDead_kills, hst0]
    rfl
  have inv0 : st0.skull = Skull.black → st0.skullTicks =
      cfg.blackSkullDuration * 24 * 60 * 60 * 1000 := by
    intro h
    simp [hst0] at h
  have inv1 := addUnjustifiedDead_black_ticks cfg t1 st0 inv0
  have inv2 := addUnjustifiedDead_black_ticks cfg t2 st1 inv1
  have inv3 := addUnjustifiedDead_black_ticks cfg t3 st2 inv2
  have inv4 := addUnjustifiedDead_black_ticks cfg t4 st3 inv3
  have inv5 := addUnjustifiedDead_black_ticks cfg t5 st4 inv4
  by_cases hb : st5.skull = Skull.black
  · have hres := addUnjustifiedDead_black_frozen cfg t6 st5 hb
    exact ⟨hres.1, hres.2.trans (inv5 hb)⟩
  · apply addUnjustifiedDead_triggers_black cfg t6 st5 hday hb
    rw [k5]
    simp only [List.countP, List.countP.go, List.append_eq]
    have c1 : t6 - t1 ≤ 4 * 60 * 60 := hwin
    have c2 : t6 - t2 ≤ 4 * 60 * 60 := by omega
    have c3 : t6 - t3 ≤ 4 * 60 * 60 := by omega
    have c4 : t6 - t4 ≤ 4 * 60 * 60 := by omega
    have c5 : t6 - t5 ≤ 4 * 60 * 60 := by omega
    have c6 : t6 - t6 ≤ 4 * 60 * 60 := by omega
    simp [c1, c2, c3, c4, c5, c6]

/-- C6 (witness): six kills at one instant under the concrete configuration
`(3, 25, 60, 30, 45)`. -/
theorem addUnjustifiedDead_six_kills_black_witness :
    (addUnjustifiedDead ⟨3, 25, 60, 30, 45⟩ false false false 1000
        (addUnjustifiedDead ⟨3, 25, 60, 30, 45⟩ false false false 1000
          (addUnjustifiedDead ⟨3, 25, 60, 30, 45⟩ false false false 1000
            (addUnjustifiedDead ⟨3, 25, 60, 30, 45⟩ false false false 1000
              (addUnjustifiedDead ⟨3, 25, 60, 30, 45⟩ false false false 1000
                (addUnjustifiedDead ⟨3, 25, 60, 30, 45⟩ false false false 1000
                  { skull := Skull.skullNone, skullTicks := 77,
                    unjustifiedKills := [] })))))).skull = Skull.black ∧
    (addUnjustifiedDead ⟨3, 25, 60, 30, 45⟩ false false false 1000
        (addUnjustifiedDead ⟨3, 25, 60, 30, 45⟩ false false false 1000
          (addUnjustifiedDead ⟨3, 25, 60, 30, 45⟩ false false false 1000
            (addUnjustifiedDead ⟨3, 25, 60, 30, 45⟩ false false false 1000
              (addUnjustifiedDead ⟨3, 25, 60, 30, 45⟩ false false false 1000
                (addUnjustifiedDead ⟨3, 25, 60, 30, 45⟩ false false false 1000
                  { skull := Skull.skullNone, skullTicks := 77,
                    unjustifiedKills := [] })))))).skullTicks =
      (⟨3, 25, 60, 30, 45⟩ : SkullCfg).blackSkullDuration * 24 * 60 * 60 * 1000 :=
  addUnjustifiedDead_six_kills_black ⟨3, 25, 60, 30, 45⟩ 1000 1000 1000 1000 1000 1000 77
    rfl (by decide) (by decide) (by decide) (by decide) (by decide) (by decide)

/-- The Battle Instinct scan never counts beyond 8. -/
theorem battleScan_le_eight (cells : List BattleCell) (n : ℕ) (h : n ≤ 8) :
    battleScan cells n ≤ 8 := by
  induction cells generalizing n with
  | nil => exact h
  | cons c rest ih =>
    unfold battleScan
    split_ifs with h8 hc
    · exact h
    · exact ih _ (by omega)
    · exact ih _ (by omega)

/-- A 3×3 neighbourhood with exactly five counted creatures. -/
def cellsFive : List BattleCell :=
  List.replicate 5 (BattleCell.creature false false) ++ List.replicate 4 BattleCell.noTile

/-- C7 (counterexample): with a count of exactly 5 — not above 5 — Battle
Instinct already grants `5 − 4 = 1` melee and `6·(5 − 4) = 6` shield instead
of clearing the stats. -/
theorem battleInstinct_at_five_cex :
    battleScan cellsFive 0 = 5 ∧ ¬(5 > 5) ∧
    (checkWheelOfDestinyBattleInstinct cellsFive ⟨0, 0, 0⟩).2.melee = 1 ∧
    (checkWheelOfDestinyBattleInstinct cellsFive ⟨0, 0, 0⟩).2.shield = 6 := by
  decide

/-- C7 (amended): the melee major stat ends at `n − 4` and the shield major
stat at `6·(n − 4)` exactly when the counted-creature number `n` (one per
tile, excluding the player and its own summons, capped at 8 by the scan) is
at least 5; below 5 both stats end at 0. -/
theorem battleInstinct_spec (cells : List BattleCell) (st : BattleState) :
    battleScan cells 0 ≤ 8 ∧
    (checkWheelOfDestinyBattleInstinct cells st).2.melee =
      (if 5 ≤ battleScan cells 0 then battleScan cells 0 - 4 else 0) ∧
    (checkWheelOfDestinyBattleInstinct cells st).2.shield =
      (if 5 ≤ battleScan cells 0 then 6 * (battleScan cells 0 - 4) else 0) := by
  refine ⟨battleScan_le_eight cells 0 (by omega), ?_, ?_⟩ <;>
  · unfold checkWheelOfDestinyBattleInstinct
    dsimp only
    split_ifs with h5 hch <;> simp_all

/-- C1: without classic slots, a two-handed weapon (hand item with the
two-hand flag and a real weapon type) queried into the left slot while the
right slot is occupied draws both-hands-must-be-free from `queryAdd` — except
for a distance weapon against a quiver in the right hand, for which the
hand-exclusion switch passes (the overall result then only depends on the
exchange, capacity and equip-hook checks that follow it). -/
theorem queryAdd_twoHand_left_hand_exclusion (ctx : QueryCtx) (item rightItem : Item)
    (count : ℕ) (noLimit : Bool)
    (hclassic : ctx.classicSlots = false)
    (hpick : item.pickupable = true)
    (hleft : item.slotPosition.left = true)
    (h2h : item.slotPosition.twoHand = true)
    (hwt : item.weaponType ≠ WeaponType.wNone ∧ item.weaponType ≠ WeaponType.shield ∧
      item.weaponType ≠ WeaponType.ammo)
    (hright : ctx.inventory SlotIndex.right = some rightItem) :
    (¬(item.weaponType = WeaponType.distance ∧ rightItem.weaponType = WeaponType.quiver) →
      queryAdd ctx SlotIndex.left item count false noLimit =
        ReturnValue.bothHandsNeedToBeFree) ∧
    ((item.weaponType = WeaponType.distance ∧ rightItem.weaponType = WeaponType.quiver) →
      queryAddSwitch ctx SlotIndex.left item count = ReturnValue.noError) := by
  constructor
  · intro hpair
    have hsw : queryAddSwitch ctx SlotIndex.left item count =
        ReturnValue.bothHandsNeedToBeFree := by
      unfold queryAddSwitch
      rw [hclassic, hright]
      simp only [hleft, if_true, Bool.not_false, if_pos rfl]
      rw [if_neg (by tauto), if_pos h2h, if_neg hpair]
    unfold queryAdd
    rw [if_neg (by simp), if_neg (by simp [hpick]), hsw]
    unfold queryAddPost
    rw [if_neg (by simp)]
  · intro hpair
    unfold queryAddSwitch
    rw [hclassic, hright]
    simp only [hleft, if_true, Bool.not_false, if_pos rfl]
    rw [if_neg (by tauto), if_pos h2h, if_pos hpair]

/-- A context for the witness: a sword in the right hand, nothing else. -/
def swordRight : Item :=
  { oid := 2, slotPosition := ⟨false, false, false, false, true, true, false, false,
      false, false, false⟩, weaponType := WeaponType.sword, pickupable := true,
    stackable := false, itemId := 20, itemCount := 1, isContainer := false,
    weight := 10, baseWeight := 10 }

/-- A quiver item for the witness context. -/
def quiverRight : Item :=
  { oid := 3, slotPosition := ⟨false, false, false, false, true, false, false, false,
      false, false, false⟩, weaponType := WeaponType.quiver, pickupable := true,
    stackable := false, itemId := 30, itemCount := 1, isContainer := true,
    weight := 8, baseWeight := 8 }

/-- A two-handed axe. -/
def axeTwoHand : Item :=
  { oid := 1, slotPosition := ⟨false, false, false, false, true, true, false, false,
      false, false, true⟩, weaponType := WeaponType.axe, pickupable := true,
    stackable := false, itemId := 10, itemCount := 1, isContainer := false,
    weight := 50, baseWeight := 50 }

/-- A two-handed bow. -/
def bowTwoHand : Item :=
  { axeTwoHand with oid := 4, weaponType := WeaponType.distance, itemId := 40 }

/-- A non-classic query context whose right hand holds `r`. -/
def ctxWithRight (r : Item) : QueryCtx :=
  { classicSlots := false
    inventory := fun i => if i = SlotIndex.right then some r else none
    flagCannotPickupItem := false
    flagHasInfiniteCapacity := false
    itemTopParentIsSelf := false
    freeCapacity := 10000
    equipHookApproves := true }

/-- C1 (witness): the two-handed axe against a sword in the right hand is
refused with both-hands-must-be-free, and the two-handed bow against a quiver
passes the hand-exclusion switch. -/
theorem queryAdd_twoHand_left_hand_exclusion_witness :
    queryAdd (ctxWithRight swordRight) SlotIndex.left axeTwoHand 1 false false =
      ReturnValue.bothHandsNeedToBeFree ∧
    queryAddSwitch (ctxWithRight quiverRight) SlotIndex.left bowTwoHand 1 =
      ReturnValue.noError :=
  ⟨(queryAdd_twoHand_left_hand_exclusion (ctxWithRight swordRight) axeTwoHand swordRight
      1 false rfl rfl rfl rfl (by decide) (by decide)).1 (by decide),
   (queryAdd_twoHand_left_hand_exclusion (ctxWithRight quiverRight) bowTwoHand quiverRight
      1 false rfl rfl rfl rfl (by decide) (by decide)).2 (by decide)⟩

end PlayerSpec
